import Mathlib

/-!
Verification of the openclaw-plugin-claude-code job supervisor.

This file shallowly embeds the plugin's core logic in Lean 4:

- the stream parser (stream-parser.ts): parseStreamLine, extractTextFromStream,
  parseRateLimitError, parseAuthError, calculateWaitMinutes;
- the session store (session-manager.ts): job records, readJobOutput, the
  filesystem write traces of updateJob / setActiveJob / updateSession, and the
  deleteSession / deleteWorkspace / cleanupIdleSessions path semantics;
- the container-name codec (podman-runner.ts): containerNameFromSessionKey and
  sessionKeyFromContainerName;
- the plugin entry points (index.ts): the claude_code_start precondition checks,
  the job-completion watcher, and the orphan reconciler recoverOrphanedJobs.

JavaScript dynamic values are modelled by an inductive Json type; a raw input
line is modelled by its JSON.parse outcome (an Option Json, none for malformed
input).  JavaScript truthiness, string coercion, and property access on
non-objects are modelled explicitly.  Wall-clock readings are passed in as
explicit parameters.  Filesystem and container-runtime effects are modelled as
explicit state (association lists / path lists / operation traces).
-/

namespace ClaudeCode

/-! ## JSON values and JavaScript semantics helpers -/

/-- A parsed JSON value, the result of a successful JSON.parse call. -/
inductive Json where
  | null : Json
  | bool (b : Bool) : Json
  | num (n : Int) : Json
  | str (s : String) : Json
  | arr (elems : List Json) : Json
  | obj (fields : List (String × Json)) : Json

/-- Property access on a JSON value: a real field of an object, undefined
(none) on everything else (arrays, scalars, missing keys). -/
def getField (j : Json) (key : String) : Option Json :=
  match j with
  | .obj fields => fields.lookup key
  | _ => none

/-- Optional-chaining property access: o?.key, where none models both null and
undefined. -/
def optField (o : Option Json) (key : String) : Option Json :=
  match o with
  | some j => getField j key
  | none => none

/-- JavaScript truthiness of a possibly-undefined value. -/
def jsTruthy (o : Option Json) : Bool :=
  match o with
  | none => false
  | some .null => false
  | some (.bool b) => b
  | some (.num n) => n != 0
  | some (.str s) => s != ""
  | some (.arr _) => true
  | some (.obj _) => true

/-- Strict equality of a possibly-undefined value against a string literal. -/
def jsStrEq (o : Option Json) (s : String) : Bool :=
  match o with
  | some (.str t) => t == s
  | _ => false

/-- JavaScript String() coercion, as applied by Array.prototype.join to each
element.  The claims only exercise the string and number branches. -/
def jsToString (j : Json) : String :=
  match j with
  | .str s => s
  | .num n => toString n
  | .bool b => if b then "true" else "false"
  | .null => "null"
  | .arr elems => String.intercalate "," (elems.attach.map (fun x => jsToString x.1))
  | .obj _ => "[object Object]"
decreasing_by
  have := List.sizeOf_lt_of_mem x.2
  simp only [Json.arr.sizeOf_spec]
  omega

/-- The test of isClaudeStreamEvent in stream-parser.ts: typeof parsed is
"object" and parsed is not null.  In JavaScript both plain objects and arrays
pass this test. -/
def isClaudeStreamEvent (j : Json) : Bool :=
  match j with
  | .obj _ => true
  | .arr _ => true
  | _ => false

/-- Substring containment, as JavaScript String.prototype.includes. -/
def includesSub (s sub : String) : Bool :=
  containsAux s.data sub.data
where
  containsAux : List Char → List Char → Bool
  | s, sub => sub.isPrefixOf s ||
      match s with
      | [] => false
      | _ :: rest => containsAux rest sub

/-! ## stream-parser.ts: parseStreamLine and extractTextFromStream -/

/-- A text event produced by parseStreamLine.  The wall-clock timestamp field
of the source is informational only and omitted here; content keeps the raw
JSON value found at event.delta.text (the source annotates it as a string but
never checks). -/
structure StreamEvent where
  type : String
  content : Json

/-- Embedding of parseStreamLine (stream-parser.ts, lines 84-108).  The input
is the JSON.parse outcome of the line; none models a parse failure. -/
def parseStreamLine (line : Option Json) : Option StreamEvent :=
  match line with
  | none => none
  | some parsed =>
    if isClaudeStreamEvent parsed then
      let event := getField parsed "event"
      let text := optField (optField event "delta") "text"
      if jsStrEq (optField event "type") "content_block_delta" && jsTruthy text then
        match text with
        | some t => some { type := "text", content := t }
        | none => none
      else none
    else none

/-- Concatenation of a list of strings, as Array.prototype.join with the
empty separator. -/
def joinAll : List String → String
  | [] => ""
  | s :: rest => s ++ joinAll rest

/-- Embedding of extractTextFromStream (stream-parser.ts, lines 113-119):
map parseStreamLine, keep the non-null text events, join their contents. -/
def extractTextFromStream (lines : List (Option Json)) : String :=
  joinAll
    (((lines.map parseStreamLine).filter
        (fun e => match e with | some ev => ev.type == "text" | none => false)).map
      (fun e => match e with | some ev => jsToString ev.content | none => ""))

/-! ## stream-parser.ts: calculateWaitMinutes -/

/-- ASCII lower-casing as JavaScript String.prototype.toLowerCase on the
characters that can occur in a reset-time token. -/
def charToLower (c : Char) : Char :=
  if 'A' ≤ c ∧ c ≤ 'Z' then Char.ofNat (c.toNat + 32) else c

/-- JavaScript parseInt(s, 10) restricted to the shapes produced by the
rate-limit regex capture group: the value of the leading decimal-digit run.
(The NaN case cannot arise there, since the capture group starts with a
digit.) -/
def jsParseInt (s : List Char) : Int :=
  ((s.takeWhile Char.isDigit).foldl (fun acc c => acc * 10 + (c.toNat - '0'.toNat)) 0 : Nat)

/-- Replace the first occurrence of pat in s by the empty string, as
String.prototype.replace with a string pattern. -/
def removeFirstInfix (pat : List Char) (s : List Char) : List Char :=
  match s with
  | [] => []
  | c :: rest =>
    if pat.isPrefixOf (c :: rest) then (c :: rest).drop pat.length
    else c :: removeFirstInfix pat rest

/-- Substring test on character lists (String.prototype.includes). -/
def hasInfix (pat : List Char) (s : List Char) : Bool :=
  pat.isPrefixOf s ||
    match s with
    | [] => false
    | _ :: rest => hasInfix pat rest

/-- The reset-hour mapping of calculateWaitMinutes (stream-parser.ts, lines
203-215), factored out of the source verbatim: pm maps 12 to 12 and N to N+12,
am maps 12 to 0 and N to N, a bare token is parsed as a 24-hour value. -/
def mappedResetHour (resetTimeStr : List Char) : Int :=
  let lowerTime := resetTimeStr.map charToLower
  if hasInfix ['p', 'm'] lowerTime then
    let hourNum := jsParseInt (removeFirstInfix ['p', 'm'] lowerTime)
    if hourNum = 12 then 12 else hourNum + 12
  else if hasInfix ['a', 'm'] lowerTime then
    let hourNum := jsParseInt (removeFirstInfix ['a', 'm'] lowerTime)
    if hourNum = 12 then 0 else hourNum
  else jsParseInt resetTimeStr

/-- Embedding of calculateWaitMinutes (stream-parser.ts, lines 198-229).  The
current UTC wall clock is passed in as hours and minutes. -/
def calculateWaitMinutes (resetTimeStr : List Char) (nowUtcHours nowUtcMinutes : Nat) : Int :=
  let resetHour := mappedResetHour resetTimeStr
  let hoursUntil := resetHour - (nowUtcHours : Int)
  let hoursUntil := if hoursUntil < 0 then hoursUntil + 24 else hoursUntil
  let minutesUntil := hoursUntil * 60 - (nowUtcMinutes : Int)
  let minutesUntil := if minutesUntil < 0 then minutesUntil + 24 * 60 else minutesUntil
  minutesUntil

/-- The decimal-digit class of the regex. -/
def digitChars : List Char := ['0', '1', '2', '3', '4', '5', '6', '7', '8', '9']

/-- The strings the capture group of the rate-limit regex can produce: one or
two decimal digits followed by an optional am or pm suffix. -/
def acceptedResetToken (digits : List Char) (_suffix : Option Bool) : Prop :=
  (digits.length = 1 ∨ digits.length = 2) ∧ ∀ c ∈ digits, c ∈ digitChars

/-- Builds the token string from its digit run and optional suffix
(some true = pm, some false = am). -/
def resetTokenStr (digits : List Char) (suffix : Option Bool) : List Char :=
  digits ++ (match suffix with
             | some true => ['p', 'm']
             | some false => ['a', 'm']
             | none => [])

/-! ## stream-parser.ts: the rate-limit regex and parseRateLimitError

The regex is (case-insensitive)
  hit your limit.*resets?[ws]+(d{1,2}(?:am|pm)?)[ws]*\(UTC\)
where [ws] stands for a whitespace class and d for a decimal digit.  The
matcher below implements JavaScript exec semantics for this fixed pattern:
the match starts at the leftmost occurrence of the literal "hit your limit"
from which the remainder of the pattern succeeds; the greedy dot does not
cross a line terminator and prefers the longest gap; the optional s, the
two-digit run and the optional am/pm suffix are matched greedily with
backtracking.  The returned value is the capture group. -/

/-- Case-insensitive character comparison (ASCII). -/
def ciMatches (p c : Char) : Bool :=
  charToLower p == charToLower c

/-- Case-insensitive literal match at the start of a string. -/
def startsWithCI : List Char → List Char → Bool
  | [], _ => true
  | _ :: _, [] => false
  | p :: ps, c :: cs => ciMatches p c && startsWithCI ps cs

/-- The JavaScript whitespace class (ASCII members). -/
def isWsChar (c : Char) : Bool :=
  c == ' ' || c == '\t' || c == '\n' || c == '\r' || c == '\x0b' || c == '\x0c'

/-- Matches the closing part [ws]*\(UTC\) at the start of s. -/
def matchClose (s : List Char) : Bool :=
  startsWithCI ['(', 'u', 't', 'c', ')'] (s.dropWhile isWsChar)

/-- Matches the optional am/pm suffix (greedily) followed by the closing part;
returns the full capture group (digits plus any suffix consumed). -/
def matchAmPm (digits : List Char) (s : List Char) : Option (List Char) :=
  (if startsWithCI ['a', 'm'] s then
    (if matchClose (s.drop 2) then some (digits ++ s.take 2) else none)
   else none) <|>
  (if startsWithCI ['p', 'm'] s then
    (if matchClose (s.drop 2) then some (digits ++ s.take 2) else none)
   else none) <|>
  (if matchClose s then some digits else none)

/-- Matches d{1,2}(?:am|pm)?[ws]*\(UTC\) at the start of s, two digits
preferred over one. -/
def matchDigits (s : List Char) : Option (List Char) :=
  match s with
  | c1 :: rest1 =>
    if c1.isDigit then
      (match rest1 with
       | c2 :: rest2 =>
         if c2.isDigit then matchAmPm [c1, c2] rest2 <|> matchAmPm [c1] rest1
         else matchAmPm [c1] rest1
       | [] => matchAmPm [c1] rest1)
    else none
  | [] => none

/-- Matches [ws]+ then the digit part: at least one whitespace character is
required, and since a digit is not whitespace the greedy run is forced. -/
def matchWsPlus (s : List Char) : Option (List Char) :=
  match s with
  | c :: rest => if isWsChar c then matchDigits (rest.dropWhile isWsChar) else none
  | [] => none

/-- Matches resets?[ws]+... at the start of s, with the optional s preferred
(greedy). -/
def matchResets (s : List Char) : Option (List Char) :=
  if startsWithCI ['r', 'e', 's', 'e', 't'] s then
    let s1 := s.drop 5
    (match s1 with
     | c :: rest => if ciMatches 's' c then matchWsPlus rest else none
     | [] => none) <|>
    matchWsPlus s1
  else none

/-- Tries matchResets at offsets p, p-1, ..., 0 of s (greedy dot: the longest
gap wins). -/
def tryOffsetsDesc : Nat → List Char → Option (List Char)
  | 0, s => matchResets s
  | p + 1, s => matchResets (s.drop (p + 1)) <|> tryOffsetsDesc p s

/-- Searches for the resets part after a literal occurrence: the gap matched
by the greedy dot cannot contain a line terminator. -/
def searchResets (s : List Char) : Option (List Char) :=
  tryOffsetsDesc ((s.takeWhile (fun c => c != '\n' && c != '\r')).length) s

/-- The full exec of the rate-limit regex on a result string: scan for the
leftmost occurrence of the literal "hit your limit" from which the rest of the
pattern matches, and return the capture group. -/
def rateLimitExec : List Char → Option (List Char)
  | [] => none
  | c :: rest =>
    if startsWithCI "hit your limit".data (c :: rest) then
      (searchResets ((c :: rest).drop 14)) <|> rateLimitExec rest
    else rateLimitExec rest

/-- Rate-limit info as produced by parseRateLimitError. -/
structure RateLimitInfo where
  resetTime : String
  waitMinutes : Int
deriving DecidableEq

/-- Auth error info as produced by parseAuthError. -/
inductive AuthErrorType where
  | token_expired
  | authentication_failed
deriving DecidableEq

structure AuthErrorInfo where
  errorType : AuthErrorType
  message : String
deriving DecidableEq

/-- Embedding of parseRateLimitError (stream-parser.ts, lines 125-151).  The
input is the JSON.parse outcome of the line; the current UTC wall clock is an
explicit parameter consumed by calculateWaitMinutes. -/
def parseRateLimitError (nowUtcHours nowUtcMinutes : Nat) (line : Option Json) :
    Option RateLimitInfo :=
  match line with
  | none => none
  | some parsed =>
    if isClaudeStreamEvent parsed then
      if jsStrEq (getField parsed "type") "result" = false then none
      else if jsTruthy (getField parsed "is_error") = false then none
      else
        match getField parsed "result" with
        | some (.str result) =>
          match rateLimitExec result.data with
          | some tok =>
            some { resetTime := String.mk tok ++ " UTC",
                   waitMinutes := calculateWaitMinutes tok nowUtcHours nowUtcMinutes }
          | none => none
        | _ => none
    else none

/-- Embedding of parseAuthError (stream-parser.ts, lines 157-192).  This
function exists in the source and is unit-tested there, but is never invoked
by the job watcher. -/
def parseAuthError (line : Option Json) : Option AuthErrorInfo :=
  match line with
  | none => none
  | some parsed =>
    if isClaudeStreamEvent parsed then
      if jsStrEq (getField parsed "type") "result" = false then none
      else if jsTruthy (getField parsed "is_error") = false then none
      else
        match getField parsed "result" with
        | some (.str result) =>
          if includesSub result "OAuth token has expired" then
            some { errorType := .token_expired,
                   message := "OAuth token has expired. Please re-authenticate Claude Code." }
          else if includesSub result "Failed to authenticate" ||
                  includesSub result "authentication_error" then
            some { errorType := .authentication_failed,
                   message := "Authentication failed. Please check your Claude Code credentials." }
          else none
        | _ => none
    else none

/-! ## session-manager.ts: record types -/

/-- Job status (session-manager.ts, line 16). -/
inductive JobStatus where
  | pending
  | running
  | completed
  | failed
  | cancelled
deriving DecidableEq

/-- Error taxonomy (podman-runner.ts).  The detached job path in index.ts also
assigns the rate_limit kind, so it is part of the union; no auth-related kind
exists anywhere in the source. -/
inductive ErrorType where
  | startup_timeout
  | idle_timeout
  | oom
  | crash
  | spawn_failed
  | rate_limit
deriving DecidableEq

/-- Resource metrics snapshot (podman-runner.ts). -/
structure ResourceMetrics where
  memoryUsageMB : Int
  memoryPercent : Int
  cpuPercent : Int
deriving DecidableEq

/-- Session record (session-manager.ts, lines 7-14). -/
structure SessionState where
  sessionKey : String
  claudeSessionId : Option String
  createdAt : String
  lastActivity : String
  messageCount : Nat
  activeJobId : Option String
deriving DecidableEq

/-- Job record (session-manager.ts, lines 18-35). -/
structure JobState where
  jobId : String
  sessionKey : String
  containerName : String
  status : JobStatus
  prompt : String
  createdAt : String
  startedAt : Option String
  completedAt : Option String
  exitCode : Option Int
  errorType : Option ErrorType
  errorMessage : Option String
  outputFile : String
  outputSize : Nat
  outputTruncated : Bool
  metrics : Option ResourceMetrics
  lastOutputAt : Option String
deriving DecidableEq

/-! ## session-manager.ts: readJobOutput -/

/-- Result of readJobOutput (session-manager.ts, lines 37-42).  Content is the
byte slice read from the output file. -/
structure JobOutputResult where
  content : List UInt8
  size : Nat
  totalSize : Nat
  hasMore : Bool
deriving DecidableEq

/-- Embedding of SessionManager.readJobOutput (session-manager.ts, lines
365-406) on an existing output log, given as its byte contents.  Absent
options default to offset 0 and limit 65536 (64 KiB); the read fills the whole
allocated buffer of size min(limit, totalSize - offset) since that many bytes
exist past the offset. -/
def readJobOutput (log : List UInt8) (offsetOpt limitOpt : Option Nat) : JobOutputResult :=
  let offset := offsetOpt.getD 0
  let limit := limitOpt.getD 65536
  let totalSize := log.length
  if offset ≥ totalSize then
    { content := [], size := 0, totalSize := totalSize, hasMore := false }
  else
    let bufLen := min limit (totalSize - offset)
    let bytes := (log.drop offset).take bufLen
    { content := bytes, size := bytes.length, totalSize := totalSize,
      hasMore := decide (offset + bytes.length < totalSize) }

/-! ## session-manager.ts: filesystem write traces (atomicity discipline)

Each record-mutating store operation is modelled by the exact sequence of
filesystem operations it performs.  A fresh random UUID suffix used by a write
is passed in as a parameter. -/

inductive FsOp where
  | write (path : String) (content : String)
  | rename (src dst : String)
deriving DecidableEq

/-- Path of a session record. -/
def sessionFilePath (sessionsDir sessionKey : String) : String :=
  sessionsDir ++ "/" ++ sessionKey ++ "/session.json"

/-- Path of a job record. -/
def jobFilePath (sessionsDir sessionKey jobId : String) : String :=
  sessionsDir ++ "/" ++ sessionKey ++ "/jobs/" ++ jobId ++ ".json"

/-- Filesystem operations performed by SessionManager.updateJob
(session-manager.ts, lines 291-308): write a sibling temp file named with a
fresh random UUID, then rename it over the job record. -/
def updateJobFsOps (sessionsDir sessionKey jobId content uuid : String) : List FsOp :=
  let jobPath := jobFilePath sessionsDir sessionKey jobId
  let tempPath := jobPath ++ "." ++ uuid ++ ".tmp"
  [.write tempPath content, .rename tempPath jobPath]

/-- Filesystem operations performed by SessionManager.setActiveJob
(session-manager.ts, lines 324-333): a direct write of session.json. -/
def setActiveJobFsOps (sessionsDir sessionKey content : String) : List FsOp :=
  [.write (sessionFilePath sessionsDir sessionKey) content]

/-- Filesystem operations performed by SessionManager.updateSession
(session-manager.ts, lines 140-152): a direct write of session.json. -/
def updateSessionFsOps (sessionsDir sessionKey content : String) : List FsOp :=
  [.write (sessionFilePath sessionsDir sessionKey) content]

/-- The temp-file-plus-atomic-rename discipline over a target path: the trace
is exactly a write of some sibling temp file followed by a rename of that temp
file over the target. -/
def atomicReplacePattern (ops : List FsOp) (target : String) : Prop :=
  ∃ temp content, temp ≠ target ∧ ops = [.write temp content, .rename temp target]

/-! ## session-manager.ts: deletion path semantics

The directory tree is modelled as the list of existing paths, each a list of
components.  Recursive forced removal deletes exactly the paths below the
target. -/

/-- Session directory of a key: sessionsDir/<key>. -/
def sessionDirPath (sessionsDir : List String) (sessionKey : String) : List String :=
  sessionsDir ++ [sessionKey]

/-- Workspace directory of a key: workspacesDir/<key>. -/
def workspaceDirPath (workspacesDir : List String) (sessionKey : String) : List String :=
  workspacesDir ++ [sessionKey]

/-- Model of fs.rm(target, recursive, force): every path at or below the
target disappears, everything else stays. -/
def rmRecursive (paths : List (List String)) (target : List String) : List (List String) :=
  paths.filter (fun p => ¬ target.isPrefixOf p)

/-- Embedding of SessionManager.deleteSession (session-manager.ts, lines
154-162): recursively remove the session subtree only. -/
def deleteSession (sessionsDir : List String) (paths : List (List String))
    (sessionKey : String) : List (List String) :=
  rmRecursive paths (sessionDirPath sessionsDir sessionKey)

/-- Embedding of SessionManager.deleteWorkspace (session-manager.ts, lines
164-172): recursively remove the workspace subtree. -/
def deleteWorkspace (workspacesDir : List String) (paths : List (List String))
    (sessionKey : String) : List (List String) :=
  rmRecursive paths (workspaceDirPath workspacesDir sessionKey)

/-- Embedding of SessionManager.cleanupIdleSessions (session-manager.ts, lines
196-210): delete every listed session whose lastActivity (in milliseconds) is
before the cutoff, returning the new tree and the deleted keys. -/
def cleanupIdleSessions (sessionsDir : List String) (paths : List (List String))
    (sessions : List (String × Nat)) (cutoff : Nat) : List (List String) × List String :=
  let idle := sessions.filter (fun s => s.2 < cutoff)
  (idle.foldl (fun acc s => deleteSession sessionsDir acc s.1) paths, idle.map (·.1))

/-! ## podman-runner.ts: container-name codec -/

/-- One step of the sanitizing replace: characters outside [A-Za-z0-9-] become
a dash (podman-runner.ts, containerNameFromSessionKey). -/
def sanitizeChar (c : Char) : Char :=
  if ('a' ≤ c ∧ c ≤ 'z') ∨ ('A' ≤ c ∧ c ≤ 'Z') ∨ ('0' ≤ c ∧ c ≤ '9') ∨ c = '-' then c
  else '-'

/-- JavaScript String.prototype.startsWith. -/
def strStartsWith (s p : String) : Bool :=
  p.data.isPrefixOf s.data

/-- Embedding of PodmanRunner.containerNameFromSessionKey (podman-runner.ts,
lines 479-481). -/
def containerNameFromSessionKey (sessionKey : String) : String :=
  "claude-" ++ String.mk (sessionKey.data.map sanitizeChar)

/-- Embedding of PodmanRunner.sessionKeyFromContainerName (podman-runner.ts,
lines 486-492): strip the claude- prefix, null when absent. -/
def sessionKeyFromContainerName (containerName : String) : Option String :=
  if strStartsWith containerName "claude-" then some (String.mk (containerName.data.drop 7))
  else none

/-! ## index.ts: the persistent store as explicit state

The on-disk session and job records are modelled as association lists; job
output logs as an association list of appended text. -/

structure Store where
  sessions : List (String × SessionState)
  jobs : List ((String × String) × JobState)
  outputs : List ((String × String) × String)
deriving DecidableEq

/-- SessionManager.getSession: read the session record by key. -/
def getSession (st : Store) (sessionKey : String) : Option SessionState :=
  st.sessions.lookup sessionKey

/-- SessionManager.getJob: read the job record. -/
def getJob (st : Store) (sessionKey jobId : String) : Option JobState :=
  st.jobs.lookup (sessionKey, jobId)

/-- SessionManager.getActiveJob (session-manager.ts, lines 313-319): resolve
the active pointer; an absent session or a null pointer yields null. -/
def getActiveJob (st : Store) (sessionKey : String) : Option JobState :=
  match getSession st sessionKey with
  | some session =>
    match session.activeJobId with
    | some jobId => getJob st sessionKey jobId
    | none => none
  | none => none

/-- Replace an entry in an association list (the effect of rewriting one
record file). -/
def setEntry {α β : Type} [BEq α] (l : List (α × β)) (k : α) (v : β) : List (α × β) :=
  l.map (fun e => if e.1 == k then (k, v) else e)

/-- SessionManager.getOrCreateSession (session-manager.ts, lines 132-138):
return the existing record or create a fresh one. -/
def getOrCreateSession (st : Store) (sessionKey now : String) : SessionState × Store :=
  match getSession st sessionKey with
  | some session => (session, st)
  | none =>
    let session : SessionState :=
      { sessionKey := sessionKey, claudeSessionId := none, createdAt := now,
        lastActivity := now, messageCount := 0, activeJobId := none }
    (session, { st with sessions := (sessionKey, session) :: st.sessions })

/-- SessionManager.createJob (session-manager.ts, lines 217-252): write a
fresh pending job record and an empty output file. -/
def createJob (st : Store) (sessionKey jobId prompt containerName now : String) :
    JobState × Store :=
  let job : JobState :=
    { jobId := jobId, sessionKey := sessionKey, containerName := containerName,
      status := .pending, prompt := prompt, createdAt := now, startedAt := none,
      completedAt := none, exitCode := none, errorType := none, errorMessage := none,
      outputFile := jobId ++ ".log", outputSize := 0, outputTruncated := false,
      metrics := none, lastOutputAt := none }
  (job, { st with jobs := ((sessionKey, jobId), job) :: st.jobs,
                  outputs := ((sessionKey, jobId), "") :: st.outputs })

/-- SessionManager.updateJob at the store level: merge a patch function into
the job record (each call site applies its concrete update object). -/
def updateJobStore (st : Store) (sessionKey jobId : String) (patch : JobState → JobState) :
    Store :=
  match getJob st sessionKey jobId with
  | some job => { st with jobs := setEntry st.jobs (sessionKey, jobId) (patch job) }
  | none => st

/-- SessionManager.setActiveJob (session-manager.ts, lines 324-333): set or
clear the active pointer and bump lastActivity. -/
def setActiveJobStore (st : Store) (sessionKey : String) (jobId : Option String)
    (now : String) : Store :=
  match getSession st sessionKey with
  | some session =>
    { st with sessions := (setEntry st.sessions sessionKey
        { session with activeJobId := jobId, lastActivity := now }) }
  | none => st

/-- SessionManager.appendJobOutput: append text to the job's output log. -/
def appendJobOutputStore (st : Store) (sessionKey jobId : String) (content : String) :
    Store :=
  match st.outputs.lookup (sessionKey, jobId) with
  | some existing => { st with outputs := (setEntry st.outputs (sessionKey, jobId)
      (existing ++ content)) }
  | none => st

/-! ## index.ts: the claude_code_start tool -/

/-- The successful payload of claude_code_start. -/
structure StartOutput where
  jobId : String
  sessionKey : String
  status : String
deriving DecidableEq

/-- Embedding of the claude_code_start execute handler (index.ts, lines
474-575).  External facts are explicit parameters: hasAuth is whether getAuth
succeeds, imageExists is the checkImage result, startOk is whether
startDetached succeeds (with startErr its failure message), jobIdFresh is the
UUID allocated by createJob, and now the wall clock.  A thrown error is the
error branch of the result, paired with the store as left behind. -/
def startExecute (st : Store) (id : String) (prompt : String) (sessionId : Option String)
    (hasAuth imageExists startOk : Bool) (startErr jobIdFresh now : String) :
    Except String StartOutput × Store :=
  if prompt == "" then (.error "prompt parameter is required", st)
  else
    let sessionKey := sessionId.getD ("session-" ++ id)
    if ¬ hasAuth then (.error "No authentication available. Set ANTHROPIC_API_KEY or create the credentials file", st)
    else if ¬ imageExists then (.error "Container image not found", st)
    else
      let (_session, st1) := getOrCreateSession st sessionKey now
      match getActiveJob st1 sessionKey with
      | some activeJob =>
        if activeJob.status = .pending ∨ activeJob.status = .running then
          (.error ("Session already has an active job: " ++ activeJob.jobId ++
            " (status: " ++ (match activeJob.status with
                             | .pending => "pending" | .running => "running"
                             | .completed => "completed" | .failed => "failed"
                             | .cancelled => "cancelled") ++ ")"), st1)
        else
          startAfterChecks st1 sessionKey prompt startOk startErr jobIdFresh now
      | none => startAfterChecks st1 sessionKey prompt startOk startErr jobIdFresh now
where
  /-- The tail of the handler after all precondition checks: create the job
  record, start the container (marking the job failed and rethrowing on
  failure), mark it running, set it active. -/
  startAfterChecks (st1 : Store) (sessionKey prompt : String) (startOk : Bool)
      (startErr jobIdFresh now : String) : Except String StartOutput × Store :=
    let containerName := containerNameFromSessionKey sessionKey
    let (job, st2) := createJob st1 sessionKey jobIdFresh prompt containerName now
    if ¬ startOk then
      let st3 := updateJobStore st2 sessionKey job.jobId (fun j =>
        { j with status := .failed, completedAt := some now, errorMessage := some startErr })
      (.error startErr, st3)
    else
      let st3 := updateJobStore st2 sessionKey job.jobId (fun j =>
        { j with status := .running, startedAt := some now })
      let st4 := setActiveJobStore st3 sessionKey (some job.jobId) now
      (.ok { jobId := job.jobId, sessionKey := sessionKey, status := "running" }, st4)

/-! ## index.ts: the job-completion watcher -/

/-- The watcher's accumulating state over the log stream: the last rate-limit
signal seen (the local terminal-signal slot) and the text appended so far to
the job's output file. -/
structure WatchState where
  rateLimitInfo : Option RateLimitInfo
  appendedText : String
deriving DecidableEq

/-- One line of the watcher's streaming loop (index.ts, lines 366-384): check
the line for a rate-limit result event (last one wins), then append the text
of a content_block_delta event.  The trailing partial-line drain (lines
387-398) runs the same two checks, so a stream is modelled as the list of all
complete lines including the final drained one. -/
def processStreamLine (nowUtcHours nowUtcMinutes : Nat) (acc : WatchState)
    (line : Option Json) : WatchState :=
  let acc :=
    match parseRateLimitError nowUtcHours nowUtcMinutes line with
    | some rateLimit => { acc with rateLimitInfo := some rateLimit }
    | none => acc
  match parseStreamLine line with
  | some event =>
    if event.type == "text" then
      { acc with appendedText := acc.appendedText ++ jsToString event.content }
    else acc
  | none => acc

/-- The watcher's full scan of the log stream. -/
def watchStreamScan (nowUtcHours nowUtcMinutes : Nat) (lines : List (Option Json)) :
    WatchState :=
  lines.foldl (processStreamLine nowUtcHours nowUtcMinutes) ⟨none, ""⟩

/-- The watcher's terminal classification (index.ts, lines 411-425): a seen
rate-limit signal forces failed/rate_limit even on exit 0; otherwise exit 137
is oom, any other non-zero exit is crash, and exit 0 completes cleanly. -/
def watchClassify (rateLimitInfo : Option RateLimitInfo) (exitCode : Int) :
    JobStatus × Option ErrorType × Option String :=
  let status : JobStatus := if exitCode = 0 then .completed else .failed
  match rateLimitInfo with
  | some info =>
    (.failed, some .rate_limit,
      some ("Claude Code rate limit hit. Wait " ++ toString info.waitMinutes ++
        " minutes (resets at " ++ info.resetTime ++ ")."))
  | none =>
    if exitCode = 137 then (status, some .oom, none)
    else if exitCode ≠ 0 then (status, some .crash, none)
    else (status, none, none)

/-- The single updateJob performed by the watcher at stream EOF (index.ts,
lines 404-434): none when the job is no longer running (someone cancelled),
otherwise the merged record with terminal status, completedAt, exitCode,
errorType and errorMessage all set in the same update. -/
def watchJobCompletionUpdate (job : JobState) (rateLimitInfo : Option RateLimitInfo)
    (exitCode : Int) (now : String) : Option JobState :=
  if job.status = .running then
    let c := watchClassify rateLimitInfo exitCode
    some { job with status := c.1, completedAt := some now, exitCode := some exitCode,
                    errorType := c.2.1, errorMessage := c.2.2 }
  else none

/-- End-to-end watcher run on a job: scan the stream, then perform the
terminal update. -/
def watchJobCompletion (job : JobState) (lines : List (Option Json))
    (nowUtcHours nowUtcMinutes : Nat) (exitCode : Int) (now : String) : Option JobState :=
  watchJobCompletionUpdate job (watchStreamScan nowUtcHours nowUtcMinutes lines).rateLimitInfo
    exitCode now

/-! ## index.ts: orphan recovery -/

/-- A container as listed by listContainersByPrefix. -/
structure ContainerInfo where
  name : String
  running : Bool
deriving DecidableEq

/-- A container inspection result, as getContainerStatus. -/
structure ContainerStatus where
  running : Bool
  exitCode : Option Int
  finishedAt : Option String
deriving DecidableEq

/-- The runtime answers consumed by the reconciler, as pure oracles: container
inspection and the (already line-split and JSON-parsed) log fetch. -/
structure RuntimeOracle where
  getStatus : String → Option ContainerStatus
  getLogs : String → Option (List (Option Json))

/-- One iteration of the recoverOrphanedJobs loop (index.ts, lines 881-919),
acting on the store plus the list of session keys passed to killContainer.  A
name without the claude- prefix, or whose derived key is empty (JavaScript
falsiness of the empty string), is skipped before anything is read or
written. -/
def recoverStep (oracle : RuntimeOracle) (now : String) (acc : Store × List String)
    (container : ContainerInfo) : Store × List String :=
  match sessionKeyFromContainerName container.name with
  | none => acc
  | some sessionKey =>
    if sessionKey == "" then acc
    else
      let (st, kills) := acc
      match getActiveJob st sessionKey with
      | some activeJob =>
        if activeJob.containerName == container.name then
          if ¬ container.running then
            let status := oracle.getStatus container.name
            let statusExitCode : Option Int :=
              match status with | some s => s.exitCode | none => none
            let statusFinishedAt : Option String :=
              match status with | some s => s.finishedAt | none => none
            let st :=
              match oracle.getLogs container.name with
              | some lines =>
                let text := extractTextFromStream lines
                if text ≠ "" then appendJobOutputStore st sessionKey activeJob.jobId text
                else st
              | none => st
            let st := updateJobStore st sessionKey activeJob.jobId (fun j =>
              { j with
                status := if statusExitCode == some 0 then .completed else .failed,
                completedAt := some (statusFinishedAt.getD now),
                exitCode := statusExitCode,
                errorType :=
                  if statusExitCode == some 137 then some .oom
                  else if statusExitCode != some 0 then some .crash
                  else none })
            let st := setActiveJobStore st sessionKey none now
            (st, kills ++ [sessionKey])
          else acc
        else (st, kills ++ [sessionKey])
      | none => (st, kills ++ [sessionKey])

/-- Embedding of recoverOrphanedJobs (index.ts, lines 874-923): fold the
reconciliation step over the containers listed with the claude- prefix. -/
def recoverOrphanedJobs (oracle : RuntimeOracle) (now : String) (st : Store)
    (containers : List ContainerInfo) : Store × List String :=
  containers.foldl (recoverStep oracle now) (st, [])

/-! ## Theorems -/

/-- C3: for every output log, offset N and limit L > 0, readJobOutput returns
the byte slice log[N : min(N+L, totalSize)], its length as size, hasMore true
exactly when N + size < totalSize, empty content once N is at or past the end,
and an omitted limit defaults to 65536 bytes. -/
theorem readJobOutput_slice (log : List UInt8) (N L : Nat) (o : Option Nat) (hL : 0 < L) :
    (readJobOutput log (some N) (some L)).content = (log.take (min (N + L) log.length)).drop N ∧
    (readJobOutput log (some N) (some L)).size =
      ((log.take (min (N + L) log.length)).drop N).length ∧
    ((readJobOutput log (some N) (some L)).hasMore = true ↔
      N + (readJobOutput log (some N) (some L)).size < log.length) ∧
    (log.length ≤ N → (readJobOutput log (some N) (some L)).content = []) ∧
    readJobOutput log o none = readJobOutput log o (some 65536) := by
  have hslice : (log.take (min (N + L) log.length)).drop N =
      (log.drop N).take (min L (log.length - N)) := by
    rw [List.drop_take]
    congr 1
    omega
  have hform : readJobOutput log (some N) (some L) =
      if log.length ≤ N then
        { content := [], size := 0, totalSize := log.length, hasMore := false }
      else
        { content := (log.drop N).take (min L (log.length - N)),
          size := ((log.drop N).take (min L (log.length - N))).length,
          totalSize := log.length,
          hasMore := decide (N + ((log.drop N).take (min L (log.length - N))).length <
            log.length) } := by
    simp only [readJobOutput, Option.getD_some, ge_iff_le]
  have hdefault : readJobOutput log o none = readJobOutput log o (some 65536) := rfl
  rw [hform, hslice]
  by_cases h : log.length ≤ N
  · have hdrop : log.drop N = [] := List.drop_eq_nil_of_le h
    simp [if_pos h, hdrop, hdefault]
    exact h
  · simp [if_neg h, hdefault]
    intro hN
    exact absurd hN h

/-- Witness for C3 at a concrete log and range. -/
theorem readJobOutput_slice_witness :
    (readJobOutput [7, 8, 9] (some 1) (some 1)).content =
      (([7, 8, 9] : List UInt8).take (min (1 + 1) 3)).drop 1 ∧
    ((readJobOutput [7, 8, 9] (some 1) (some 1)).hasMore = true ↔
      1 + (readJobOutput [7, 8, 9] (some 1) (some 1)).size < 3) :=
  ⟨(readJobOutput_slice [7, 8, 9] 1 1 none (by decide)).1,
   (readJobOutput_slice [7, 8, 9] 1 1 none (by decide)).2.2.1⟩

/-- C8 counterexample: the round trip through sessionKeyFromContainerName and
containerNameFromSessionKey is not the identity on every string beginning with
claude-: the sanitizer rewrites the underscore of claude-a_b to a dash. -/
theorem containerName_roundTrip_counterexample :
    sessionKeyFromContainerName "claude-a_b" = some "a_b" ∧
    containerNameFromSessionKey "a_b" = "claude-a-b" ∧
    ¬ (∀ s k, sessionKeyFromContainerName s = some k → containerNameFromSessionKey k = s) :=
  ⟨by decide, by decide,
   fun h => absurd (h "claude-a_b" "a_b" (by decide)) (by decide)⟩

/-- C8 amended: the round trip is the identity on strings beginning with
claude- whose remainder stays inside [A-Za-z0-9-] (every container name the
plugin itself creates has this shape); sessionKeyFromContainerName returns
null on any other string; and the empty session key round-trips through the
bare claude- name. -/
theorem containerName_codec_props :
    (∀ s k, sessionKeyFromContainerName s = some k →
      (∀ c ∈ k.data, sanitizeChar c = c) → containerNameFromSessionKey k = s) ∧
    (∀ s, strStartsWith s "claude-" = false → sessionKeyFromContainerName s = none) ∧
    sessionKeyFromContainerName (containerNameFromSessionKey "") = some "" := by
  refine ⟨?_, ?_, by decide⟩
  · intro s k hk hall
    unfold sessionKeyFromContainerName at hk
    by_cases h : strStartsWith s "claude-" = true
    · rw [if_pos h] at hk
      have hpre : "claude-".data <+: s.data := by
        have := List.isPrefixOf_iff_prefix.mp h
        exact this
      obtain ⟨t, ht⟩ := hpre
      have hkval : k = String.mk (s.data.drop 7) := by
        injection hk with h2
        exact h2.symm
      have hkdata : k.data = t := by
        rw [hkval]
        show (s.data.drop 7) = t
        rw [← ht]
        exact List.drop_left "claude-".data t
      have hmap : k.data.map sanitizeChar = k.data :=
        (List.map_congr_left hall).trans (List.map_id k.data)
      show "claude-" ++ String.mk (k.data.map sanitizeChar) = s
      rw [hmap, hkdata]
      have hdata : ("claude-" ++ String.mk t).data = s.data := by
        rw [String.data_append]
        exact ht
      exact congrArg String.mk hdata
    · rw [if_neg h] at hk
      exact absurd hk (by simp)
  · intro s h
    unfold sessionKeyFromContainerName
    rw [if_neg]
    simp [h]

/-- Witness for C8 at concrete names. -/
theorem containerName_codec_props_witness :
    containerNameFromSessionKey "abc" = "claude-abc" ∧
    sessionKeyFromContainerName "xyz" = none :=
  ⟨containerName_codec_props.1 "claude-abc" "abc" (by decide) (by decide),
   containerName_codec_props.2.1 "xyz" (by decide)⟩

/-! Helper lemmas about digit characters and token strings, used for the
rate-limit wait computation. -/

theorem charToLower_digit {c : Char} (hc : c ∈ digitChars) : charToLower c = c := by
  fin_cases hc <;> decide

theorem beq_digit_ne {c : Char} (hc : c ∈ digitChars) :
    ('p' == c) = false ∧ ('m' == c) = false ∧ ('a' == c) = false := by
  fin_cases hc <;> decide

theorem map_charToLower_digits {digits : List Char} (h : ∀ c ∈ digits, c ∈ digitChars) :
    digits.map charToLower = digits := by
  rw [List.map_congr_left (fun c hc => charToLower_digit (h c hc))]
  exact List.map_id digits

theorem removeFirstInfix_digits_suffix {digits : List Char} (h : ∀ c ∈ digits, c ∈ digitChars)
    {p : Char} (sfx : List Char) (hp : ∀ c ∈ digits, (p == c) = false) :
    removeFirstInfix (p :: sfx) (digits ++ p :: sfx) = digits := by
  induction digits with
  | nil =>
    show removeFirstInfix (p :: sfx) (p :: sfx) = []
    unfold removeFirstInfix
    rw [if_pos (List.isPrefixOf_iff_prefix.mpr (List.prefix_refl _))]
    simp
  | cons c rest ih =>
    show removeFirstInfix (p :: sfx) (c :: (rest ++ p :: sfx)) = c :: rest
    unfold removeFirstInfix
    have hne : (p :: sfx).isPrefixOf (c :: (rest ++ p :: sfx)) = false := by
      show (p == c && _) = false
      rw [hp c (List.mem_cons_self c rest)]
      rfl
    rw [hne]
    simp only [if_neg Bool.false_ne_true]
    rw [ih (fun x hx => h x (List.mem_cons_of_mem c hx))
        (fun x hx => hp x (List.mem_cons_of_mem c hx))]

theorem hasInfix_suffix_self (digits pat : List Char) :
    pat ≠ [] → hasInfix pat (digits ++ pat) = true := by
  intro hne
  induction digits with
  | nil =>
    unfold hasInfix
    rw [List.nil_append, List.isPrefixOf_iff_prefix.mpr (List.prefix_refl _)]
    rfl
  | cons c rest ih =>
    unfold hasInfix
    rw [List.cons_append]
    cases hpb : pat.isPrefixOf (c :: (rest ++ pat))
    · simpa [hpb] using ih
    · rfl

theorem hasInfix_head_notin {pat : List Char} {s : List Char} {p : Char}
    (hpat : ∃ t, pat = p :: t) (hs : ∀ c ∈ s, (p == c) = false) :
    hasInfix pat s = false := by
  induction s with
  | nil =>
    obtain ⟨t, rfl⟩ := hpat
    rfl
  | cons c rest ih =>
    obtain ⟨t, rfl⟩ := hpat
    unfold hasInfix
    have h1 : (p :: t).isPrefixOf (c :: rest) = false := by
      show (p == c && _) = false
      rw [hs c (List.mem_cons_self c rest)]
      rfl
    rw [h1]
    simpa using ih (fun x hx => hs x (List.mem_cons_of_mem c hx))

theorem digits_no_p_m {digits : List Char} (h : ∀ c ∈ digits, c ∈ digitChars) :
    (∀ c ∈ digits, ('p' == c) = false) ∧ (∀ c ∈ digits, ('a' == c) = false) :=
  ⟨fun c hc => (beq_digit_ne (h c hc)).1, fun c hc => (beq_digit_ne (h c hc)).2.2⟩

/-- C4 counterexample: the wait computation is not bounded by [0, 1440) over
every token the regex accepts: the two-digit pm token 13pm maps to hour 25 and
yields 1500 minutes at midnight UTC. -/
theorem calculateWaitMinutes_range_counterexample :
    acceptedResetToken ['1', '3'] (some true) ∧
    calculateWaitMinutes (resetTokenStr ['1', '3'] (some true)) 0 0 = 1500 ∧
    ¬ (∀ digits suffix, acceptedResetToken digits suffix →
        ∀ nowH nowM : Nat, nowH ≤ 23 → nowM ≤ 59 →
          0 ≤ calculateWaitMinutes (resetTokenStr digits suffix) nowH nowM ∧
          calculateWaitMinutes (resetTokenStr digits suffix) nowH nowM < 1440) := by
  refine ⟨⟨Or.inr rfl, by decide⟩, by decide, fun hAll => ?_⟩
  have h := (hAll ['1', '3'] (some true) ⟨Or.inr rfl, by decide⟩ 0 0 (by omega) (by omega)).2
  rw [show calculateWaitMinutes (resetTokenStr ['1', '3'] (some true)) 0 0 = 1500 from by decide]
    at h
  omega

/-- C4 amended: for every accepted token whose mapped reset hour is a valid
wall-clock hour (0 to 23), the computed wait is in [0, 1440); the hour mapping
is 12pm to 12, Npm to N+12 otherwise, 12am to 0, Nam to N otherwise, and a
bare integer to itself; and at 22:00 UTC the 6am target waits 480 minutes, at
18:00 the 8pm target waits 120, at 10:00 the 12pm target waits 120, and at
22:00 the 12am target waits 120. -/
theorem calculateWaitMinutes_amended :
    (∀ digits suffix, acceptedResetToken digits suffix →
      0 ≤ mappedResetHour (resetTokenStr digits suffix) →
      mappedResetHour (resetTokenStr digits suffix) ≤ 23 →
      ∀ nowH nowM : Nat, nowH ≤ 23 → nowM ≤ 59 →
        0 ≤ calculateWaitMinutes (resetTokenStr digits suffix) nowH nowM ∧
        calculateWaitMinutes (resetTokenStr digits suffix) nowH nowM < 1440) ∧
    (∀ digits, (∀ c ∈ digits, c ∈ digitChars) →
      mappedResetHour (resetTokenStr digits (some true)) =
        (if jsParseInt digits = 12 then 12 else jsParseInt digits + 12) ∧
      mappedResetHour (resetTokenStr digits (some false)) =
        (if jsParseInt digits = 12 then 0 else jsParseInt digits) ∧
      mappedResetHour (resetTokenStr digits none) = jsParseInt digits) ∧
    calculateWaitMinutes (resetTokenStr ['6'] (some false)) 22 0 = 480 ∧
    calculateWaitMinutes (resetTokenStr ['8'] (some true)) 18 0 = 120 ∧
    calculateWaitMinutes (resetTokenStr ['1', '2'] (some true)) 10 0 = 120 ∧
    calculateWaitMinutes (resetTokenStr ['1', '2'] (some false)) 22 0 = 120 := by
  refine ⟨?_, ?_, by decide, by decide, by decide, by decide⟩
  · intro digits suffix _hacc h0 h23 nowH nowM hh hm
    simp only [calculateWaitMinutes]
    split_ifs <;> constructor <;> omega
  · intro digits h
    have hnp := (digits_no_p_m h).1
    have hna := (digits_no_p_m h).2
    have hmapd := map_charToLower_digits h
    refine ⟨?_, ?_, ?_⟩
    · show mappedResetHour (digits ++ ['p', 'm']) = _
      simp only [mappedResetHour, List.map_append, hmapd]
      rw [show (['p', 'm'] : List Char).map charToLower = ['p', 'm'] from rfl,
        hasInfix_suffix_self digits ['p', 'm'] (by simp),
        removeFirstInfix_digits_suffix h ['m'] hnp]
      rfl
    · show mappedResetHour (digits ++ ['a', 'm']) = _
      simp only [mappedResetHour, List.map_append, hmapd]
      rw [show (['a', 'm'] : List Char).map charToLower = ['a', 'm'] from rfl]
      have hpm : hasInfix ['p', 'm'] (digits ++ ['a', 'm']) = false := by
        refine hasInfix_head_notin ⟨['m'], rfl⟩ ?_
        intro c hc
        rcases List.mem_append.mp hc with h1 | h1
        · exact hnp c h1
        · fin_cases h1 <;> decide
      rw [hpm, hasInfix_suffix_self digits ['a', 'm'] (by simp),
        removeFirstInfix_digits_suffix h ['m'] hna]
      rfl
    · show mappedResetHour (digits ++ []) = _
      rw [List.append_nil]
      simp only [mappedResetHour, hmapd]
      have hpm : hasInfix ['p', 'm'] digits = false :=
        hasInfix_head_notin ⟨['m'], rfl⟩ hnp
      have ham : hasInfix ['a', 'm'] digits = false :=
        hasInfix_head_notin ⟨['m'], rfl⟩ hna
      rw [hpm, ham]
      rfl

/-- Witness for C4 at the 8pm token and 18:00 UTC. -/
theorem calculateWaitMinutes_amended_witness :
    (0 ≤ calculateWaitMinutes (resetTokenStr ['8'] (some true)) 18 0 ∧
      calculateWaitMinutes (resetTokenStr ['8'] (some true)) 18 0 < 1440) ∧
    mappedResetHour (resetTokenStr ['8'] (some true)) =
      (if jsParseInt ['8'] = 12 then 12 else jsParseInt ['8'] + 12) :=
  ⟨calculateWaitMinutes_amended.1 ['8'] (some true) ⟨Or.inl rfl, by decide⟩
      (by decide) (by decide) 18 0 (by omega) (by omega),
   (calculateWaitMinutes_amended.2.1 ['8'] (by decide)).1⟩

/-- C6 counterexample: setActiveJob rewrites session.json with a single direct
write, not with the temp-file-plus-rename pattern. -/
theorem session_record_write_not_atomic :
    ¬ atomicReplacePattern (setActiveJobFsOps "sessions" "key" "content")
        (sessionFilePath "sessions" "key") := by
  rintro ⟨temp, content, _hne, heq⟩
  simp [setActiveJobFsOps] at heq

/-- C6 amended: job-record updates follow the temp-file-plus-atomic-rename
discipline with a temp name containing the fresh random suffix, and distinct
suffixes give distinct temp names; session-record updates (setActiveJob and
updateSession) are instead single in-place writes of session.json. -/
theorem updateJob_atomic_rename :
    (∀ sessionsDir sessionKey jobId content uuid,
      atomicReplacePattern (updateJobFsOps sessionsDir sessionKey jobId content uuid)
        (jobFilePath sessionsDir sessionKey jobId)) ∧
    (∀ sessionsDir sessionKey jobId u1 u2, u1 ≠ u2 →
      jobFilePath sessionsDir sessionKey jobId ++ "." ++ u1 ++ ".tmp" ≠
        jobFilePath sessionsDir sessionKey jobId ++ "." ++ u2 ++ ".tmp") ∧
    (∀ sessionsDir sessionKey content,
      setActiveJobFsOps sessionsDir sessionKey content =
        [.write (sessionFilePath sessionsDir sessionKey) content]) ∧
    (∀ sessionsDir sessionKey content,
      updateSessionFsOps sessionsDir sessionKey content =
        [.write (sessionFilePath sessionsDir sessionKey) content]) := by
  refine ⟨?_, ?_, fun _ _ _ => rfl, fun _ _ _ => rfl⟩
  · intro sessionsDir sessionKey jobId content uuid
    refine ⟨jobFilePath sessionsDir sessionKey jobId ++ "." ++ uuid ++ ".tmp", content, ?_, rfl⟩
    intro heq
    have hlen := congrArg String.length heq
    simp only [String.length_append] at hlen
    have : (".tmp" : String).length = 4 := rfl
    omega
  · intro sessionsDir sessionKey jobId u1 u2 hne heq
    apply hne
    have hdata := congrArg String.data heq
    simp only [String.data_append] at hdata
    have h1 := List.append_cancel_right hdata
    have h2 := List.append_cancel_left h1
    exact congrArg String.mk h2

/-- Witness for C6 at concrete paths and suffixes. -/
theorem updateJob_atomic_rename_witness :
    atomicReplacePattern (updateJobFsOps "s" "k" "j" "rec" "u1") (jobFilePath "s" "k" "j") ∧
    jobFilePath "s" "k" "j" ++ "." ++ "a" ++ ".tmp" ≠
      jobFilePath "s" "k" "j" ++ "." ++ "b" ++ ".tmp" :=
  ⟨updateJob_atomic_rename.1 "s" "k" "j" "rec" "u1",
   updateJob_atomic_rename.2.1 "s" "k" "j" "a" "b" (by decide)⟩

/-- Paths untouched by every deleteSession step are untouched by the cleanup
fold. -/
theorem mem_foldl_deleteSession (sessionsDir : List String) (q : List String)
    (hq : ∀ key2 acc, q ∈ deleteSession sessionsDir acc key2 ↔ q ∈ acc) :
    ∀ (l : List (String × Nat)) (paths : List (List String)),
      q ∈ l.foldl (fun acc s => deleteSession sessionsDir acc s.1) paths ↔ q ∈ paths := by
  intro l
  induction l with
  | nil => intro paths; rfl
  | cons s rest ih =>
    intro paths
    rw [List.foldl_cons, ih (deleteSession sessionsDir paths s.1), hq s.1 paths]

/-- C7: deleteSession removes exactly the paths below the session directory
under sessionsDir; whenever the configured roots are not nested into each
other, every path below the session's workspace directory survives both
deleteSession (for any key) and cleanupIdleSessions; and removal of the
workspace subtree is the separate deleteWorkspace operation. -/
theorem deleteSession_preserves_workspace (sessionsDir workspacesDir : List String)
    (paths : List (List String)) (sessionKey : String) :
    (∀ p, p ∈ deleteSession sessionsDir paths sessionKey ↔
      p ∈ paths ∧ ¬ sessionDirPath sessionsDir sessionKey <+: p) ∧
    (¬ sessionsDir <+: workspaceDirPath workspacesDir sessionKey →
     ¬ workspaceDirPath workspacesDir sessionKey <+: sessionsDir →
     ∀ q, workspaceDirPath workspacesDir sessionKey <+: q →
      (∀ key2, q ∈ deleteSession sessionsDir paths key2 ↔ q ∈ paths) ∧
      (∀ sessions cutoff,
        q ∈ (cleanupIdleSessions sessionsDir paths sessions cutoff).1 ↔ q ∈ paths)) ∧
    (∀ p, p ∈ deleteWorkspace workspacesDir paths sessionKey ↔
      p ∈ paths ∧ ¬ workspaceDirPath workspacesDir sessionKey <+: p) := by
  have hmem : ∀ (target : List String) (ps : List (List String)) (p : List String),
      p ∈ rmRecursive ps target ↔ p ∈ ps ∧ ¬ target <+: p := by
    intro target ps p
    simp [rmRecursive, List.mem_filter, List.isPrefixOf_iff_prefix]
  refine ⟨fun p => hmem _ paths p, ?_, fun p => hmem _ paths p⟩
  intro hsw hws q hq
  have hqkeep : ∀ key2 acc, q ∈ deleteSession sessionsDir acc key2 ↔ q ∈ acc := by
    intro key2 acc
    unfold deleteSession
    rw [hmem _ acc q]
    have hnot : ¬ sessionDirPath sessionsDir key2 <+: q := by
      intro hpre
      rcases Nat.le_total (sessionDirPath sessionsDir key2).length
          (workspaceDirPath workspacesDir sessionKey).length with hle | hle
      · have h1 : sessionDirPath sessionsDir key2 <+:
            workspaceDirPath workspacesDir sessionKey :=
          List.prefix_of_prefix_length_le hpre hq hle
        exact hsw ((List.prefix_append sessionsDir [key2]).trans h1)
      · have h1 : workspaceDirPath workspacesDir sessionKey <+:
            sessionDirPath sessionsDir key2 :=
          List.prefix_of_prefix_length_le hq hpre hle
        rcases Nat.lt_or_ge (workspaceDirPath workspacesDir sessionKey).length
            (sessionDirPath sessionsDir key2).length with hlt | hge
        · have hlen2 : (workspaceDirPath workspacesDir sessionKey).length ≤
              sessionsDir.length := by
            simp only [sessionDirPath, List.length_append, List.length_cons,
              List.length_nil] at hlt
            omega
          exact hws (List.prefix_of_prefix_length_le h1 (List.prefix_append _ _) hlen2)
        · have heq : workspaceDirPath workspacesDir sessionKey =
              sessionDirPath sessionsDir key2 :=
            List.IsPrefix.eq_of_length h1 (Nat.le_antisymm hle hge)
          apply hsw
          rw [heq]
          exact List.prefix_append sessionsDir [key2]
    tauto
  refine ⟨fun key2 => hqkeep key2 paths, ?_⟩
  intro sessions cutoff
  exact mem_foldl_deleteSession sessionsDir q hqkeep _ paths

/-- Witness for C7 at a concrete two-root tree. -/
theorem deleteSession_preserves_workspace_witness :
    (["w", "k", "code.txt"] ∈
      deleteSession ["s"] [["s", "k", "session.json"], ["w", "k", "code.txt"]] "k" ↔
      ["w", "k", "code.txt"] ∈ [["s", "k", "session.json"], ["w", "k", "code.txt"]]) ∧
    (["s", "k", "session.json"] ∈
      deleteSession ["s"] [["s", "k", "session.json"], ["w", "k", "code.txt"]] "k" ↔
      ["s", "k", "session.json"] ∈ [["s", "k", "session.json"], ["w", "k", "code.txt"]] ∧
      ¬ sessionDirPath ["s"] "k" <+: ["s", "k", "session.json"]) :=
  ⟨((deleteSession_preserves_workspace ["s"] ["w"]
      [["s", "k", "session.json"], ["w", "k", "code.txt"]] "k").2.1
      (by decide) (by decide) ["w", "k", "code.txt"] (by decide)).1 "k",
   (deleteSession_preserves_workspace ["s"] ["w"]
      [["s", "k", "session.json"], ["w", "k", "code.txt"]] "k").1 ["s", "k", "session.json"]⟩

/-- A reconciliation step on the bare claude- container is a no-op: the
derived key is the empty string, which the guard treats as falsy. -/
theorem recoverStep_skips_bare (oracle : RuntimeOracle) (now : String)
    (acc : Store × List String) (r : Bool) :
    recoverStep oracle now acc (ContainerInfo.mk "claude-" r) = acc := rfl

/-- C10: during orphan recovery a container named exactly claude- contributes
nothing: the reconciliation over any container list containing it equals the
reconciliation over the list without it, so no store mutation happens and no
kill is issued for it. -/
theorem recoverOrphanedJobs_skips_bare_claude (oracle : RuntimeOracle) (now : String)
    (st : Store) (pre post : List ContainerInfo) (r : Bool) :
    recoverOrphanedJobs oracle now st (pre ++ ContainerInfo.mk "claude-" r :: post) =
      recoverOrphanedJobs oracle now st (pre ++ post) := by
  unfold recoverOrphanedJobs
  rw [List.foldl_append, List.foldl_append, List.foldl_cons,
    recoverStep_skips_bare oracle now _ r]

/-- A concrete running job used to evaluate the watcher. -/
def sampleRunningJob : JobState :=
  { jobId := "job-1", sessionKey := "k", containerName := "claude-k",
    status := .running, prompt := "hello", createdAt := "T0", startedAt := some "T0",
    completedAt := none, exitCode := none, errorType := none, errorMessage := none,
    outputFile := "job-1.log", outputSize := 0, outputTruncated := false,
    metrics := none, lastOutputAt := none }

/-- A rate-limit result line as emitted by the assistant. -/
def rateLimitLine : Json :=
  .obj [("type", .str "result"), ("is_error", .bool true),
        ("result", .str "You have hit your limit · resets 8pm (UTC)")]

/-- An authentication-failure result line as emitted by the assistant. -/
def authErrorLine : Json :=
  .obj [("type", .str "result"), ("is_error", .bool true),
        ("result", .str "Failed to authenticate. API Error: 401 OAuth token has expired.")]

/-- C1: a watcher reaching stream EOF on a still-running job performs exactly
one terminal update carrying the exit code and completion time; a rate-limit
signal seen on the stream forces failed/rate_limit even on exit 0, otherwise
exit 137 gives failed/oom, any other non-zero exit gives failed/crash, and
exit 0 gives completed with no error kind. -/
theorem watcher_terminal_classification (job : JobState) (lines : List (Option Json))
    (nowH nowM : Nat) (e : Int) (now : String) (hrun : job.status = .running) :
    ∃ u, watchJobCompletion job lines nowH nowM e now = some u ∧
      u.exitCode = some e ∧ u.completedAt = some now ∧
      (∀ info, (watchStreamScan nowH nowM lines).rateLimitInfo = some info →
        u.status = .failed ∧ u.errorType = some .rate_limit) ∧
      ((watchStreamScan nowH nowM lines).rateLimitInfo = none →
        (e = 137 → u.status = .failed ∧ u.errorType = some .oom) ∧
        (e ≠ 0 → e ≠ 137 → u.status = .failed ∧ u.errorType = some .crash) ∧
        (e = 0 → u.status = .completed ∧ u.errorType = none)) := by
  unfold watchJobCompletion watchJobCompletionUpdate
  rw [if_pos hrun]
  refine ⟨_, rfl, rfl, rfl, ?_, ?_⟩
  · intro info hinfo
    simp only [watchClassify, hinfo]
    exact ⟨trivial, trivial⟩
  · intro hnone
    simp only [watchClassify, hnone]
    refine ⟨?_, ?_, ?_⟩
    · intro h137
      subst h137
      norm_num
    · intro hne hne137
      simp [hne, hne137]
    · intro h0
      subst h0
      norm_num

/-- Witness for C1: the empty stream with exit 0 completes; a stream carrying
a rate-limit result line fails with the rate_limit kind despite exit 0. -/
theorem watcher_terminal_classification_witness :
    (∃ u, watchJobCompletion sampleRunningJob [] 0 0 0 "T" = some u ∧
      u.status = .completed ∧ u.errorType = none) ∧
    (∃ u, watchJobCompletion sampleRunningJob [some rateLimitLine] 18 0 0 "T" = some u ∧
      u.status = .failed ∧ u.errorType = some .rate_limit) := by
  constructor
  · obtain ⟨u, hu, _hx, _hc, _hrl, hnone⟩ :=
      watcher_terminal_classification sampleRunningJob [] 0 0 0 "T" rfl
    have h := (hnone rfl).2.2 rfl
    exact ⟨u, hu, h.1, h.2⟩
  · obtain ⟨u, hu, _hx, _hc, hrl, _hnone⟩ :=
      watcher_terminal_classification sampleRunningJob [some rateLimitLine] 18 0 0 "T" rfl
    have h := hrl { resetTime := "8pm UTC", waitMinutes := 120 } (by decide)
    exact ⟨u, hu, h.1, h.2⟩

/-- C5: the watcher never consults parseAuthError: on a stream whose only line
is an authentication-error result (detected by parseAuthError, containing the
OAuth-expired marker, and carrying no rate-limit signal), the terminal
classification at exit 0 persists completed with no error kind, not a failed
status with an auth error kind. -/
theorem watcher_ignores_auth_error :
    parseAuthError (some authErrorLine) =
      some { errorType := .token_expired,
             message := "OAuth token has expired. Please re-authenticate Claude Code." } ∧
    includesSub "Failed to authenticate. API Error: 401 OAuth token has expired."
      "OAuth token has expired" = true ∧
    (watchStreamScan 0 0 [some authErrorLine]).rateLimitInfo = none ∧
    watchJobCompletion sampleRunningJob [some authErrorLine] 0 0 0 "T" =
      some ({ sampleRunningJob with
                status := .completed, completedAt := some "T",
                exitCode := some 0, errorType := none, errorMessage := none }) :=
  ⟨by decide, by decide, by decide, by decide⟩

/-- C2: a start call on a session whose active job is pending or running (all
earlier checks passing) raises an error whose text contains the phrase
already has an active job, and every failed precondition check (empty prompt,
missing authentication, missing image, active job) leaves the store exactly as
it was: no job record is created and no active-job pointer moves. -/
theorem claude_code_start_active_job_guard (st : Store) (id prompt : String)
    (sessionId : Option String) (hasAuth imageExists startOk : Bool)
    (startErr jobIdFresh now : String) :
    (∀ aj, getActiveJob st (sessionId.getD ("session-" ++ id)) = some aj →
      aj.status = .pending ∨ aj.status = .running →
      prompt ≠ "" → hasAuth = true → imageExists = true →
      (∃ pre post,
        (startExecute st id prompt sessionId hasAuth imageExists startOk
          startErr jobIdFresh now).1 = .error (pre ++ "already has an active job" ++ post)) ∧
      (startExecute st id prompt sessionId hasAuth imageExists startOk
        startErr jobIdFresh now).2 = st) ∧
    ((prompt = "" ∨ hasAuth = false ∨ imageExists = false) →
      (∃ msg, (startExecute st id prompt sessionId hasAuth imageExists startOk
          startErr jobIdFresh now).1 = .error msg) ∧
      (startExecute st id prompt sessionId hasAuth imageExists startOk
        startErr jobIdFresh now).2 = st) := by
  constructor
  · intro aj haj hstat hp ha hi
    subst ha
    subst hi
    have hbeq : (prompt == "") = false := beq_eq_false_iff_ne.mpr hp
    obtain ⟨s, hs⟩ : ∃ s, getSession st (sessionId.getD ("session-" ++ id)) = some s := by
      unfold getActiveJob at haj
      rcases hs : getSession st (sessionId.getD ("session-" ++ id)) with _ | s
      · rw [hs] at haj
        cases haj
      · exact ⟨s, rfl⟩
    have hgoc : getOrCreateSession st (sessionId.getD ("session-" ++ id)) now = (s, st) := by
      unfold getOrCreateSession
      rw [hs]
    simp only [startExecute, hbeq, Bool.false_eq_true, if_false, not_true, if_neg,
      Bool.true_eq_false, hgoc, haj, if_pos hstat, not_false_iff]
    refine ⟨⟨"Session ",
      ": " ++ aj.jobId ++ " (status: " ++ (match aj.status with
        | .pending => "pending" | .running => "running" | .completed => "completed"
        | .failed => "failed" | .cancelled => "cancelled") ++ ")", ?_⟩, by trivial⟩
    congr 1
  · intro hfail
    rcases hfail with h | h | h
    · subst h
      exact ⟨⟨_, rfl⟩, by trivial⟩
    · subst h
      by_cases hb : (prompt == "") = true
      · simp only [startExecute, hb, if_true]
        exact ⟨⟨_, rfl⟩, by trivial⟩
      · simp only [startExecute, Bool.not_eq_true] at hb
        simp only [startExecute, hb, Bool.false_eq_true, if_false, Bool.not_false, not_false_iff,
          if_pos]
        exact ⟨⟨_, rfl⟩, by trivial⟩
    · subst h
      by_cases hb : (prompt == "") = true
      · simp only [startExecute, hb, if_true]
        exact ⟨⟨_, rfl⟩, by trivial⟩
      · simp only [startExecute, Bool.not_eq_true] at hb
        by_cases hauth : hasAuth = true
        · subst hauth
          simp only [startExecute, hb, Bool.false_eq_true, if_false, not_true, if_neg,
            not_false_iff, if_pos]
          exact ⟨⟨_, rfl⟩, by trivial⟩
        · simp only [Bool.not_eq_true] at hauth
          subst hauth
          simp only [startExecute, hb, Bool.false_eq_true, if_false, Bool.not_false, not_false_iff,
            if_pos]
          exact ⟨⟨_, rfl⟩, by trivial⟩

/-- The session record of the concrete store below: job-1 is active. -/
def sampleActiveSession : SessionState :=
  { sessionKey := "k", claudeSessionId := none, createdAt := "T0",
    lastActivity := "T0", messageCount := 1, activeJobId := some "job-1" }

/-- A concrete store in which session k has the running job job-1 active. -/
def sampleStore : Store :=
  { sessions := [("k", sampleActiveSession)],
    jobs := [(("k", "job-1"), sampleRunningJob)],
    outputs := [(("k", "job-1"), "")] }

/-- Witness for C2: a second start on session k fails with the active-job
message and leaves the store untouched; an empty prompt also fails without a
state change. -/
theorem claude_code_start_active_job_guard_witness :
    ((∃ pre post, (startExecute sampleStore "id" "hello" (some "k") true true true
        "err" "job-2" "T1").1 = .error (pre ++ "already has an active job" ++ post)) ∧
      (startExecute sampleStore "id" "hello" (some "k") true true true
        "err" "job-2" "T1").2 = sampleStore) ∧
    ((∃ msg, (startExecute sampleStore "id" "" none true true true
        "err" "job-2" "T1").1 = .error msg) ∧
      (startExecute sampleStore "id" "" none true true true "err" "job-2" "T1").2 =
        sampleStore) :=
  ⟨(claude_code_start_active_job_guard sampleStore "id" "hello" (some "k") true true true
      "err" "job-2" "T1").1 sampleRunningJob rfl (Or.inr rfl)
      (by decide) rfl rfl,
   (claude_code_start_active_job_guard sampleStore "id" "" none true true true
      "err" "job-2" "T1").2 (Or.inl rfl)⟩

/-! ## C9: the claimed characterization of extractTextFromStream -/

/-- The text the claim attributes to one line, written from the claim wording
for comparison with the source embedding: the delta.text value of a line that
parses to an object of shape event.type = content_block_delta whose text is a
non-empty string; nothing otherwise. -/
def claimTextOf (line : Option Json) : Option String :=
  match line with
  | some j =>
    match getField j "event" with
    | some ev =>
      match getField ev "type" with
      | some (.str t) =>
        if t = "content_block_delta" then
          match getField ev "delta" with
          | some d =>
            match getField d "text" with
            | some (.str s) => if s ≠ "" then some s else none
            | _ => none
          | none => none
        else none
      | _ => none
    | none => none
  | none => none

/-- The claim's value of the whole stream: the in-order concatenation of the
claimed per-line texts. -/
def claimedTextConcat (lines : List (Option Json)) : String :=
  joinAll (lines.filterMap claimTextOf)

/-- The contribution of one line to extractTextFromStream. -/
def linePiece (line : Option Json) : String :=
  match parseStreamLine line with
  | some ev => if ev.type == "text" then jsToString ev.content else ""
  | none => ""

/-- Whether the delta.text value of a content_block_delta line is a string (or
absent); lines of any other shape satisfy this vacuously. -/
def contentDeltaTextOk (line : Option Json) : Bool :=
  match line with
  | some j =>
    match getField j "event" with
    | some ev =>
      match getField ev "type" with
      | some (.str t) =>
        if t = "content_block_delta" then
          match getField ev "delta" with
          | some d =>
            match getField d "text" with
            | some (.str _) => true
            | some _ => false
            | none => true
          | none => true
        else true
      | _ => true
    | none => true
  | none => true

theorem linePiece_eq_claim (l : Option Json) (h : contentDeltaTextOk l = true) :
    linePiece l = (claimTextOf l).getD "" := by
  rcases l with _ | j
  · rfl
  · rcases j with _ | b | n | s | elems | fields <;> try rfl
    simp only [contentDeltaTextOk, getField] at h
    simp only [linePiece, parseStreamLine, claimTextOf, getField, optField, jsStrEq,
      jsTruthy, isClaudeStreamEvent]
    rcases he : fields.lookup "event" with _ | ev
    · simp [he]
    · simp only [he] at h ⊢
      rcases ev with _ | b2 | n2 | s2 | elems2 | efields <;> try rfl
      simp only [getField] at h ⊢
      rcases ht : efields.lookup "type" with _ | tv
      · simp [ht]
      · simp only [ht] at h ⊢
        rcases tv with _ | b3 | n3 | s3 | elems3 | tfields <;> try rfl
        by_cases htype : s3 = "content_block_delta"
        · subst htype
          simp only [if_pos rfl, beq_self_eq_true, Bool.true_and] at h ⊢
          rcases hd : efields.lookup "delta" with _ | dv
          · simp [hd]
          · simp only [hd] at h ⊢
            rcases dv with _ | b4 | n4 | s4 | elems4 | dfields <;> try rfl
            simp only [getField] at h ⊢
            rcases htx : dfields.lookup "text" with _ | xv
            · simp [htx]
            · simp only [htx] at h ⊢
              rcases xv with _ | b5 | n5 | s5 | elems5 | xfields <;> try simp at h
              by_cases hs5 : s5 = ""
              · subst hs5
                simp
              · simp [hs5, jsToString]
        · have hbeq : (s3 == "content_block_delta") = false := beq_eq_false_iff_ne.mpr htype
          simp [hbeq, htype]

theorem extract_cons (l : Option Json) (ls : List (Option Json)) :
    extractTextFromStream (l :: ls) = linePiece l ++ extractTextFromStream ls := by
  unfold extractTextFromStream linePiece
  rcases hp : parseStreamLine l with _ | ev
  · simp [hp, String.empty_append]
  · simp only [List.map_cons, hp, List.filter_cons]
    by_cases hb : (ev.type == "text") = true
    · simp [hb, joinAll]
    · simp only [Bool.not_eq_true] at hb
      simp [hb, String.empty_append]

theorem claimed_cons (l : Option Json) (ls : List (Option Json)) :
    claimedTextConcat (l :: ls) = (claimTextOf l).getD "" ++ claimedTextConcat ls := by
  unfold claimedTextConcat
  rcases hc : claimTextOf l with _ | t
  · simp [List.filterMap_cons, hc, String.empty_append]
  · simp [List.filterMap_cons, hc, joinAll]

/-- A content_block_delta line whose delta.text is the number 5 rather than a
string; the source emits its string coercion. -/
def numericDeltaLine : Json :=
  .obj [("event", .obj [("type", .str "content_block_delta"),
                        ("delta", .obj [("text", .num 5)])])]

/-- C9 counterexample: extractTextFromStream does not ignore a
content_block_delta line whose text is a truthy non-string: a numeric text 5
is emitted as the string 5, while the claimed characterization contributes
nothing for it. -/
theorem extractText_spec_counterexample :
    extractTextFromStream [some numericDeltaLine] = "5" ∧
    claimedTextConcat [some numericDeltaLine] = "" ∧
    ¬ (∀ lines, extractTextFromStream lines = claimedTextConcat lines) := by
  have hy : jsToString (Json.num 5) = "5" := by
    simp only [jsToString]
    decide
  have h5 : extractTextFromStream [some numericDeltaLine] = "5" := by
    have hx : extractTextFromStream [some numericDeltaLine] = jsToString (Json.num 5) ++ "" :=
      rfl
    rw [hx, hy]
    decide
  have h0 : claimedTextConcat [some numericDeltaLine] = "" := by decide
  refine ⟨h5, h0, fun hAll => ?_⟩
  have h := hAll [some numericDeltaLine]
  rw [h5, h0] at h
  exact absurd h (by decide)

/-- C9 amended: on streams whose content_block_delta events carry only string
(or absent) text values, extractTextFromStream equals the in-order
concatenation of the non-empty delta.text strings of exactly the
content_block_delta lines; malformed lines, non-object values and other event
shapes contribute nothing. -/
theorem extractText_amended (lines : List (Option Json))
    (h : ∀ l ∈ lines, contentDeltaTextOk l = true) :
    extractTextFromStream lines = claimedTextConcat lines := by
  induction lines with
  | nil => rfl
  | cons l ls ih =>
    rw [extract_cons, claimed_cons, linePiece_eq_claim l (h l (List.mem_cons_self l ls)),
      ih (fun x hx => h x (List.mem_cons_of_mem l hx))]

/-- A well-formed text line used by the C9 witness. -/
def sampleTextLine : Json :=
  .obj [("event", .obj [("type", .str "content_block_delta"),
                        ("delta", .obj [("text", .str "Hi")])])]

/-- Witness for C9 on a concrete stream with one text line and one malformed
line. -/
theorem extractText_amended_witness :
    extractTextFromStream [some sampleTextLine, none] =
      claimedTextConcat [some sampleTextLine, none] :=
  extractText_amended [some sampleTextLine, none] (by decide)

end ClaudeCode
